import Mathlib

/-!
A verification development for the io-handles crate.

The model is a shallow embedding of `src/posish.rs`, `src/winx.rs` and
`src/descriptor.rs`.  Pure data flow is translated directly; the stateful
parts are translated as explicit state passing:

* An OS pipe is a FIFO byte queue.  The bytes a foreground writer has put
  into a write-bridge pipe but that the worker has not yet been observed to
  consume are the `pending` list carried in the bridge state; the worker's
  sequential copy loop delivers exactly those bytes, in order, to the sink
  when the pipe is closed and the thread joined.
* A `JoinHandle` is represented by the value the worker thread eventually
  terminates with, since the foreground only ever inspects it through a
  blocking `join()`.
* A Rust panic (an `unwrap`/`unwrap_err` firing) is the `none` case of an
  `Option` result.
* Whether an OS call on a descriptor fails, and with which error code, is
  environment-dependent, so operations take the OS outcome as an explicit
  `Option IOError` argument (`none` = the call succeeded).
* Byte values are modelled as `Nat`; no arithmetic is ever performed on
  them.  Raw file descriptors / raw handles are likewise `Nat`, chosen by
  the environment, so constructors that obtain fresh OS objects take them
  as arguments.
-/

/-- An OS-level I/O error, identified by its error code. -/
abbrev IOError := Nat

/-- A raw file descriptor (POSIX) or raw handle number (Windows). -/
abbrev RawFd := Nat

/-- A caller-supplied boxed `Read` implementation: it yields `data` and then
either reports end of stream (`thenErr = none`) or fails with an error. -/
structure BoxedRead where
  data : List Nat
  thenErr : Option IOError
deriving DecidableEq

/-- A caller-supplied boxed `Write` implementation (the sink behind a write
bridge): `received` are the bytes accepted so far, `flushCount` counts the
flushes it has observed, and `capacity` bounds how many bytes it accepts
before failing with `failCode` (`none` = infallible), modelling a sink
error such as "disk full". -/
structure BoxedWrite where
  received : List Nat
  flushCount : Nat
  capacity : Option Nat
  failCode : IOError
deriving DecidableEq

/-- `Write::write_all` on the boxed sink: accepts the bytes while within
capacity, otherwise fails with the sink's error. -/
def sinkWriteAll (w : BoxedWrite) (bs : List Nat) : Except IOError BoxedWrite :=
  match w.capacity with
  | none => .ok { w with received := w.received ++ bs }
  | some cap =>
      if w.received.length + bs.length ≤ cap then
        .ok { w with received := w.received ++ bs }
      else
        .error w.failCode

/-- `Write::flush` on the boxed sink. -/
def sinkFlush (w : BoxedWrite) : Except IOError BoxedWrite :=
  .ok { w with flushCount := w.flushCount + 1 }

/-- The write-direction worker thread's body, from `WriteHandle::piped_thread`:
`copy(&mut pipe_reader, &mut *boxed_write)?; boxed_write.flush()?;
Ok(boxed_write)` — it drains the pipe's bytes into the sink, flushes the
sink, and terminates returning the sink (or the terminal error). -/
def writeWorker (sink : BoxedWrite) (pipeBytes : List Nat) : Except IOError BoxedWrite :=
  match sinkWriteAll sink pipeBytes with
  | .error e => .error e
  | .ok w => sinkFlush w

/-- The read-direction worker thread's result, from `ReadHandle::piped_thread`:
`copy(&mut *boxed_read, &mut pipe_writer).map(|_size| ())` — after copying
the source's bytes into the pipe it terminates with `Ok(())` on end of
stream or with the source's error. -/
def readWorkerResult (r : BoxedRead) : Except IOError Unit :=
  match r.thenErr with
  | none => .ok ()
  | some e => .error e

/-- `std::process::Stdio` configurations used by the command constructors. -/
inductive Stdio where
  | inherit : Stdio
  | piped : Stdio
  | null : Stdio
deriving DecidableEq

/-- `std::process::Command`: the stdio configuration it will spawn with.
A freshly constructed command inherits all three standard streams. -/
structure Command where
  stdinCfg : Stdio
  stdoutCfg : Stdio
  stderrCfg : Stdio
deriving DecidableEq

/-- `Command::new`: all standard streams default to `Stdio::inherit`. -/
def Command.new : Command :=
  ⟨Stdio.inherit, Stdio.inherit, Stdio.inherit⟩

/-- A spawned child process: the stdio configuration it was spawned with and
the raw descriptors the OS assigned to its redirected streams. -/
structure Child where
  stdinCfg : Stdio
  stdoutCfg : Stdio
  stderrCfg : Stdio
  stdinFd : RawFd
  stdoutFd : RawFd
  stderrFd : RawFd
deriving DecidableEq

/-- `Command::spawn`: starts a child with the command's current stdio
configuration; the raw descriptors of the child's streams are chosen by the
OS and supplied by the environment. -/
def Command.spawn (c : Command) (fds : RawFd × RawFd × RawFd) : Child :=
  ⟨c.stdinCfg, c.stdoutCfg, c.stderrCfg, fds.1, fds.2.1, fds.2.2⟩

/-!
Model of the spec's exclusivity collaborator.
-/

/-- Modelled from the spec: the `lockers` module (`StdinLocker`,
`StdoutLocker`) is declared in `lib.rs` but its source file is not part of
the repository snapshot.  Per the spec, the collaborator provides
`acquire(stream_id) -> Token | AlreadyHeld`, failing immediately when the
stream's token is already held and releasing it when the token is
destroyed.  The state records, per standard stream, whether its token is
held and how many live tokens for it exist (the latter is bookkeeping used
to state the at-most-one invariant). -/
structure LockState where
  stdinHeld : Bool
  stdoutHeld : Bool
  liveStdin : Nat
  liveStdout : Nat
deriving DecidableEq

/-- The process-wide initial state: no standard stream token is held. -/
def LockState.init : LockState :=
  ⟨false, false, 0, 0⟩

/-- Modelled from the spec: the exclusivity-conflict error condition raised
when a token is already held.  The concrete error code is immaterial. -/
def lockConflict : IOError :=
  1

/-- Modelled from the spec: `StdinLocker::new` acquires the process-wide
standard-input token, failing immediately (no blocking) if it is held. -/
def StdinLocker.new (st : LockState) : Except IOError LockState :=
  if st.stdinHeld then
    .error lockConflict
  else
    .ok { st with stdinHeld := true, liveStdin := st.liveStdin + 1 }

/-- Modelled from the spec: `StdoutLocker::new` acquires the process-wide
standard-output token, failing immediately (no blocking) if it is held. -/
def StdoutLocker.new (st : LockState) : Except IOError LockState :=
  if st.stdoutHeld then
    .error lockConflict
  else
    .ok { st with stdoutHeld := true, liveStdout := st.liveStdout + 1 }

/-- Modelled from the spec: destroying a `StdinLocker` token releases the
standard-input stream. -/
def StdinLocker.drop (st : LockState) : LockState :=
  { st with stdinHeld := false, liveStdin := st.liveStdin - 1 }

/-- Modelled from the spec: destroying a `StdoutLocker` token releases the
standard-output stream. -/
def StdoutLocker.drop (st : LockState) : LockState :=
  { st with stdoutHeld := false, liveStdout := st.liveStdout - 1 }

/-- Decidable equality for worker results, so that concrete states can be
compared by evaluation. -/
instance {ε α : Type} [DecidableEq ε] [DecidableEq α] : DecidableEq (Except ε α) := fun a b =>
  match a, b with
  | Except.error x, Except.error y =>
      if h : x = y then Decidable.isTrue (by rw [h])
      else Decidable.isFalse (fun hc => h (Except.error.inj hc))
  | Except.error _, Except.ok _ => Decidable.isFalse (fun hc => Except.noConfusion hc)
  | Except.ok _, Except.error _ => Decidable.isFalse (fun hc => Except.noConfusion hc)
  | Except.ok x, Except.ok y =>
      if h : x = y then Decidable.isTrue (by rw [h])
      else Decidable.isFalse (fun hc => h (Except.ok.inj hc))

/-!
Model of `src/posish.rs`.
-/

namespace Posish

/-- `ReadResources` from `posish.rs`: the tagged variant owning the actual
resource behind a `ReadHandle`.  OS objects whose internals the claims never
inspect are carried as their raw descriptor; the pipe-backed variants carry
the unread contents of the pipe.  `pipedThread` carries, while active
(`some`), the pipe reader's unread content together with the worker
thread's eventual join result; `none` is the consumed state after the pair
has been taken out. -/
inductive ReadResources where
  | file : RawFd → ReadResources
  | tcpStream : RawFd → ReadResources
  | unixStream : RawFd → ReadResources
  | pipeReader : List Nat → ReadResources
  | stdin : ReadResources
  | pipedThread : Option (List Nat × Except IOError Unit) → ReadResources
  | child : Child → ReadResources
  | childStdout : RawFd → ReadResources
  | childStderr : RawFd → ReadResources
deriving DecidableEq

/-- `ReadHandle` from `posish.rs`: the descriptor (the raw fd all reads go
through, aliasing the resource) plus the owning resources. -/
structure ReadHandle where
  descriptor : RawFd
  resources : ReadResources
deriving DecidableEq

/-- `WriteResources` from `posish.rs`.  `pipedThread` carries, while active
(`some`), the bytes written into the pipe that the worker has not yet been
observed to consume, together with the sink the worker is copying into
(from which its join result is computed); `none` is the consumed state. -/
inductive WriteResources where
  | file : RawFd → WriteResources
  | tcpStream : RawFd → WriteResources
  | unixStream : RawFd → WriteResources
  | pipeWriter : RawFd → WriteResources
  | stdout : WriteResources
  | pipedThread : Option (List Nat × BoxedWrite) → WriteResources
  | child : Child → WriteResources
  | childStdin : RawFd → WriteResources
deriving DecidableEq

/-- `WriteHandle` from `posish.rs`. -/
structure WriteHandle where
  descriptor : RawFd
  resources : WriteResources
deriving DecidableEq

/-- `ReadWriteResources` from `posish.rs`. -/
inductive ReadWriteResources where
  | pipeReaderWriter : RawFd × RawFd → ReadWriteResources
  | stdinStdout : ReadWriteResources
  | child : Child → ReadWriteResources
  | childStdoutStdin : RawFd × RawFd → ReadWriteResources
  | charDevice : RawFd → ReadWriteResources
  | tcpStream : RawFd → ReadWriteResources
  | unixStream : RawFd → ReadWriteResources
deriving DecidableEq

/-- `ReadWriteHandle` from `posish.rs`: one descriptor per direction plus
the owning resources. -/
structure ReadWriteHandle where
  read_descriptor : RawFd
  write_descriptor : RawFd
  resources : ReadWriteResources
deriving DecidableEq

/-- `libc::PIPE_BUF`: the platform's atomic pipe-write bound (4096 bytes on
Linux), the threshold of the `ReadHandle::bytes` fast path. -/
def PIPE_BUF : Nat :=
  4096

/-- `ReadHandle::piped_thread` from `posish.rs`: creates a pipe, spawns a
worker that copies the boxed reader into the pipe writer, and wraps the
pipe reader.  The raw fd of the fresh pipe reader is chosen by the OS.
The pipe's readable content is everything the worker will deliver (the
source's bytes, in order, FIFO), and the bridge state also records the
worker's eventual join result. -/
def ReadHandle.piped_thread (boxed_read : BoxedRead) (readFd : RawFd) : ReadHandle :=
  ⟨readFd, ReadResources.pipedThread (some (boxed_read.data, readWorkerResult boxed_read))⟩

/-- `ReadHandle::bytes` from `posish.rs`: if the payload fits the atomic
pipe-write bound it is written eagerly into a fresh pipe whose write end is
then closed, yielding a plain pipe-reader resource with no thread;
otherwise the general `piped_thread` path is taken over a cursor that
yields the bytes and then end of stream. -/
def ReadHandle.bytes (bytes : List Nat) (readFd : RawFd) : ReadHandle :=
  if bytes.length ≤ PIPE_BUF then
    ⟨readFd, ReadResources.pipeReader bytes⟩
  else
    ReadHandle.piped_thread ⟨bytes, none⟩ readFd

/-- `ReadHandle::stdin` from `posish.rs`: acquires the stdin locker and
aliases its raw fd (0); threads the process-wide lock state. -/
def ReadHandle.stdin (st : LockState) : Except IOError ReadHandle × LockState :=
  match StdinLocker.new st with
  | .error e => (.error e, st)
  | .ok st1 => (.ok ⟨0, ReadResources.stdin⟩, st1)

/-- `ReadHandle::read_from_command` from `posish.rs`: sets the child's stdin
to `Stdio::null()` and its stdout to `Stdio::piped()` (its stderr is left
at the command's existing configuration), spawns it, and wraps the raw fd
of the child's stdout, retaining the child process in the resources. -/
def ReadHandle.read_from_command (command : Command) (fds : RawFd × RawFd × RawFd) :
    ReadHandle :=
  let command := { command with stdinCfg := Stdio.null, stdoutCfg := Stdio.piped }
  let child := command.spawn fds
  ⟨child.stdoutFd, ReadResources.child child⟩

/-- `ReadHandle::map_err` from `posish.rs`: on an active thread bridge, take
the bridge state out (panicking if already consumed), drop the pipe reader,
join the worker and return the error it terminated with —
`join().unwrap().unwrap_err()` panics when the worker terminated with
`Ok`.  On every other resource the original error is returned unchanged.
`none` models a panic. -/
def ReadHandle.map_err (h : ReadHandle) (e : IOError) : Option (IOError × ReadHandle) :=
  match h.resources with
  | ReadResources.pipedThread st =>
      match st with
      | none => none
      | some (_, result) =>
          match result with
          | .error werr => some (werr, ⟨h.descriptor, ReadResources.pipedThread none⟩)
          | .ok _ => none
  | _ => some (e, h)

/-- `Read::read` for `ReadHandle`: the OS outcome of the descriptor read is
the `descErr` argument.  On success a pipe-backed descriptor yields the
next bytes of the pipe's content, at most `n` of them (an empty result is
end of stream, observed once the content is exhausted and the write end
closed); resource variants other than the pipe-backed ones read from OS
objects whose contents this model does not track, so they are modelled as
yielding no data.  On failure the error goes through `map_err`. -/
def ReadHandle.read (h : ReadHandle) (n : Nat) (descErr : Option IOError) :
    Option (Except IOError (List Nat) × ReadHandle) :=
  match descErr with
  | some e =>
      match h.map_err e with
      | none => none
      | some (e2, h2) => some (.error e2, h2)
  | none =>
      match h.resources with
      | ReadResources.pipeReader content =>
          some (.ok (content.take n), ⟨h.descriptor, ReadResources.pipeReader (content.drop n)⟩)
      | ReadResources.pipedThread (some (content, result)) =>
          some (.ok (content.take n),
            ⟨h.descriptor, ReadResources.pipedThread (some (content.drop n, result))⟩)
      | _ => some (.ok [], h)

/-- The success path of `ReadHandle.read` (the descriptor read succeeded),
as a total function for stating data-correctness properties. -/
def ReadHandle.readOk (h : ReadHandle) (n : Nat) : List Nat × ReadHandle :=
  match h.resources with
  | ReadResources.pipeReader content =>
      (content.take n, ⟨h.descriptor, ReadResources.pipeReader (content.drop n)⟩)
  | ReadResources.pipedThread (some (content, result)) =>
      (content.take n,
        ⟨h.descriptor, ReadResources.pipedThread (some (content.drop n, result))⟩)
  | _ => ([], h)

/-- The unread bytes still deliverable through a pipe-backed handle. -/
def ReadHandle.content (h : ReadHandle) : List Nat :=
  match h.resources with
  | ReadResources.pipeReader content => content
  | ReadResources.pipedThread (some (content, _)) => content
  | _ => []

/-- Reading a handle with a sequence of chunk sizes: one successful `read`
call per chunk size, returning the concatenation of everything read and
the final handle. -/
def readAll : ReadHandle → List Nat → List Nat × ReadHandle
  | h, [] => ([], h)
  | h, n :: rest =>
      match h.readOk n with
      | (bs, h1) =>
          match readAll h1 rest with
          | (tail, h2) => (bs ++ tail, h2)

/-- `impl Drop for ReadResources` from `posish.rs`: on the `PipedThread`
variant the state is taken out and unwrapped unconditionally (panicking if
it was already consumed), the pipe reader dropped, the worker joined, and
its result unwrapped (panicking if the worker terminated with an error).
Other variants drop without observable effect.  `none` models a panic. -/
def ReadResources.drop : ReadResources → Option Unit
  | ReadResources.pipedThread st =>
      match st with
      | none => none
      | some (_, result) =>
          match result with
          | .ok _ => some ()
          | .error _ => none
  | _ => some ()

/-- `WriteHandle::piped_thread` from `posish.rs`: creates a pipe, spawns a
worker that copies the pipe reader into the boxed sink, flushes the sink
and returns it, and wraps the pipe writer.  A fresh bridge has no bytes in
flight. -/
def WriteHandle.piped_thread (boxed_write : BoxedWrite) (writeFd : RawFd) : WriteHandle :=
  ⟨writeFd, WriteResources.pipedThread (some ([], boxed_write))⟩

/-- `WriteHandle::stdout` from `posish.rs`: acquires the stdout locker and
aliases its raw fd (1); threads the process-wide lock state. -/
def WriteHandle.stdout (st : LockState) : Except IOError WriteHandle × LockState :=
  match StdoutLocker.new st with
  | .error e => (.error e, st)
  | .ok st1 => (.ok ⟨1, WriteResources.stdout⟩, st1)

/-- `WriteHandle::write_to_command` from `posish.rs`: sets the child's stdin
to `Stdio::piped()` and its stdout to `Stdio::null()` (its stderr is left
at the command's existing configuration), spawns it, and wraps the raw fd
of the child's stdin, retaining the child process in the resources. -/
def WriteHandle.write_to_command (command : Command) (fds : RawFd × RawFd × RawFd) :
    WriteHandle :=
  let command := { command with stdinCfg := Stdio.piped, stdoutCfg := Stdio.null }
  let child := command.spawn fds
  ⟨child.stdinFd, WriteResources.child child⟩

/-- `WriteHandle::map_err` from `posish.rs`: on an active thread bridge, take
the bridge state out (panicking if already consumed), drop the pipe writer,
join the worker and return the error it terminated with —
`join().unwrap().map(|_| ()).unwrap_err()` panics when the worker
terminated with `Ok`.  On every other resource the original error is
returned unchanged.  `none` models a panic. -/
def WriteHandle.map_err (h : WriteHandle) (e : IOError) : Option (IOError × WriteHandle) :=
  match h.resources with
  | WriteResources.pipedThread st =>
      match st with
      | none => none
      | some (pending, sink) =>
          match writeWorker sink pending with
          | .error werr => some (werr, ⟨h.descriptor, WriteResources.pipedThread none⟩)
          | .ok _ => none
  | _ => some (e, h)

/-- `Write::write_all` for `WriteHandle`: the OS outcome of the descriptor
write is the `descErr` argument.  On success the bytes enter the bridge's
pipe (FIFO) when the bridge is active; on other resources they go to OS
objects whose contents this model does not track.  On failure the error
goes through `map_err`. -/
def WriteHandle.write_all (h : WriteHandle) (buf : List Nat) (descErr : Option IOError) :
    Option (Except IOError Unit × WriteHandle) :=
  match descErr with
  | some e =>
      match h.map_err e with
      | none => none
      | some (e2, h2) => some (.error e2, h2)
  | none =>
      match h.resources with
      | WriteResources.pipedThread (some (pending, sink)) =>
          some (.ok (), ⟨h.descriptor, WriteResources.pipedThread (some (pending ++ buf, sink))⟩)
      | _ => some (.ok (), h)

/-- `Write::flush` for `WriteHandle` from `posish.rs`: `descErr` is the OS
outcome of the descriptor-level flush and `pipeErr` that of the pipe
writer's flush.  On the success path with an active bridge the state is
taken out (panicking if already consumed), the pipe writer flushed and
dropped, the worker joined — `join().unwrap().unwrap()` panics if the
worker terminated with an error — and the handle replaced in place by a
brand-new bridge around the recovered sink, whose fresh pipe-writer fd is
`newFd`.  A `pipeErr` propagates via `?` with the bridge state already
taken.  A `descErr` goes through `map_err`.  `none` models a panic. -/
def WriteHandle.flush (h : WriteHandle) (descErr pipeErr : Option IOError) (newFd : RawFd) :
    Option (Except IOError Unit × WriteHandle) :=
  match descErr with
  | some e =>
      match h.map_err e with
      | none => none
      | some (e2, h2) => some (.error e2, h2)
  | none =>
      match h.resources with
      | WriteResources.pipedThread st =>
          match st with
          | none => none
          | some (pending, sink) =>
              match pipeErr with
              | some e => some (.error e, ⟨h.descriptor, WriteResources.pipedThread none⟩)
              | none =>
                  match writeWorker sink pending with
                  | .error _ => none
                  | .ok sink2 => some (.ok (), WriteHandle.piped_thread sink2 newFd)
      | _ => some (.ok (), h)

/-- `impl Drop for WriteResources` from `posish.rs`: on the `PipedThread`
variant the state is taken out behind an `if let Some` guard — a consumed
bridge drops without effect — and, when active, the pipe writer is
dropped, the worker joined, and its result unwrapped (panicking if the
worker terminated with an error).  `none` models a panic. -/
def WriteResources.drop : WriteResources → Option Unit
  | WriteResources.pipedThread st =>
      match st with
      | none => some ()
      | some (pending, sink) =>
          match writeWorker sink pending with
          | .ok _ => some ()
          | .error _ => none
  | _ => some ()

/-- `ReadWriteHandle::stdin_stdout` from `posish.rs`: acquires the stdin
locker, then the stdout locker (if the latter fails, the already-acquired
stdin locker is dropped by the early return, releasing it), and aliases
raw fds 0 and 1. -/
def ReadWriteHandle.stdin_stdout (st : LockState) :
    Except IOError ReadWriteHandle × LockState :=
  match StdinLocker.new st with
  | .error e => (.error e, st)
  | .ok st1 =>
      match StdoutLocker.new st1 with
      | .error e => (.error e, StdinLocker.drop st1)
      | .ok st2 => (.ok ⟨0, 1, ReadWriteResources.stdinStdout⟩, st2)

/-- `ReadWriteHandle::child_stdout_stdin` from `posish.rs`: the read
descriptor is the raw fd of the child's stdout and the write descriptor is
the raw fd of the child's stdin; both stream objects are retained. -/
def ReadWriteHandle.child_stdout_stdin (child_stdout child_stdin : RawFd) : ReadWriteHandle :=
  ⟨child_stdout, child_stdin, ReadWriteResources.childStdoutStdin (child_stdout, child_stdin)⟩

/-- Dropping a handle's resources releases the standard-stream token it
holds, if any (the locker's destructor runs when the owning resource
variant is destroyed). -/
def ReadResources.release (r : ReadResources) (st : LockState) : LockState :=
  match r with
  | ReadResources.stdin => StdinLocker.drop st
  | _ => st

/-- Dropping a `WriteResources` releases the stdout token it holds, if any. -/
def WriteResources.release (r : WriteResources) (st : LockState) : LockState :=
  match r with
  | WriteResources.stdout => StdoutLocker.drop st
  | _ => st

/-- Dropping a `ReadWriteResources` releases the stdio tokens it holds. -/
def ReadWriteResources.release (r : ReadWriteResources) (st : LockState) : LockState :=
  match r with
  | ReadWriteResources.stdinStdout => StdoutLocker.drop (StdinLocker.drop st)
  | _ => st

end Posish

/-!
Model of `src/winx.rs` and `src/descriptor.rs`.
-/

namespace Winx

/-- `Descriptor` from `descriptor.rs`: Windows distinguishes handle-like and
socket-like I/O objects, so the descriptor is a two-case choice wrapping a
raw handle or a raw socket. -/
inductive Descriptor where
  | file : RawFd → Descriptor
  | socket : RawFd → Descriptor
deriving DecidableEq

/-- `ReadResources` from `winx.rs` (same shape as the posish one, minus the
Unix-domain variant). -/
inductive ReadResources where
  | file : RawFd → ReadResources
  | tcpStream : RawFd → ReadResources
  | pipeReader : List Nat → ReadResources
  | stdin : ReadResources
  | pipedThread : Option (List Nat × Except IOError Unit) → ReadResources
  | child : Child → ReadResources
  | childStdout : RawFd → ReadResources
  | childStderr : RawFd → ReadResources
deriving DecidableEq

/-- `ReadHandle` from `winx.rs`. -/
structure ReadHandle where
  descriptor : Descriptor
  resources : ReadResources
deriving DecidableEq

/-- `WriteResources` from `winx.rs`. -/
inductive WriteResources where
  | file : RawFd → WriteResources
  | tcpStream : RawFd → WriteResources
  | pipeWriter : RawFd → WriteResources
  | stdout : WriteResources
  | pipedThread : Option (List Nat × BoxedWrite) → WriteResources
  | child : Child → WriteResources
  | childStdin : RawFd → WriteResources
deriving DecidableEq

/-- `WriteHandle` from `winx.rs`. -/
structure WriteHandle where
  descriptor : Descriptor
  resources : WriteResources
deriving DecidableEq

/-- `ReadWriteResources` from `winx.rs`. -/
inductive ReadWriteResources where
  | pipeReaderWriter : RawFd × RawFd → ReadWriteResources
  | stdinStdout : ReadWriteResources
  | child : Child → ReadWriteResources
  | childStdoutStdin : RawFd × RawFd → ReadWriteResources
  | charDevice : RawFd → ReadWriteResources
  | tcpStream : RawFd → ReadWriteResources
deriving DecidableEq

/-- `ReadWriteHandle` from `winx.rs`. -/
structure ReadWriteHandle where
  read_descriptor : Descriptor
  write_descriptor : Descriptor
  resources : ReadWriteResources
deriving DecidableEq

/-- `ReadHandle::piped_thread` from `winx.rs`: same thread bridge as the
posish one; the descriptor wraps the pipe reader's raw handle. -/
def ReadHandle.piped_thread (boxed_read : BoxedRead) (readHandle : RawFd) : ReadHandle :=
  ⟨Descriptor.file readHandle,
    ReadResources.pipedThread (some (boxed_read.data, readWorkerResult boxed_read))⟩

/-- `ReadHandle::bytes` from `winx.rs`: no fast path — it always launches a
thread over a cursor that yields the bytes and then end of stream. -/
def ReadHandle.bytes (bytes : List Nat) (readHandle : RawFd) : ReadHandle :=
  ReadHandle.piped_thread ⟨bytes, none⟩ readHandle

/-- `ReadHandle::read_from_command` from `winx.rs`: sets the child's stdin to
`Stdio::null()` and its stdout to `Stdio::piped()` (its stderr is left at
the command's existing configuration), spawns it, and wraps the raw handle
of the child's stdout, retaining the child process in the resources. -/
def ReadHandle.read_from_command (command : Command) (fds : RawFd × RawFd × RawFd) :
    ReadHandle :=
  let command := { command with stdinCfg := Stdio.null, stdoutCfg := Stdio.piped }
  let child := command.spawn fds
  ⟨Descriptor.file child.stdoutFd, ReadResources.child child⟩

/-- `ReadHandle::map_err` from `winx.rs`: identical to the posish one. -/
def ReadHandle.map_err (h : ReadHandle) (e : IOError) : Option (IOError × ReadHandle) :=
  match h.resources with
  | ReadResources.pipedThread st =>
      match st with
      | none => none
      | some (_, result) =>
          match result with
          | .error werr => some (werr, ⟨h.descriptor, ReadResources.pipedThread none⟩)
          | .ok _ => none
  | _ => some (e, h)

/-- `WriteHandle::map_err` from `winx.rs`: identical to the posish one. -/
def WriteHandle.map_err (h : WriteHandle) (e : IOError) : Option (IOError × WriteHandle) :=
  match h.resources with
  | WriteResources.pipedThread st =>
      match st with
      | none => none
      | some (pending, sink) =>
          match writeWorker sink pending with
          | .error werr => some (werr, ⟨h.descriptor, WriteResources.pipedThread none⟩)
          | .ok _ => none
  | _ => some (e, h)

/-- `impl Drop for ReadResources` from `winx.rs`: identical to the posish
one — the taken bridge state is unwrapped unconditionally. -/
def ReadResources.drop : ReadResources → Option Unit
  | ReadResources.pipedThread st =>
      match st with
      | none => none
      | some (_, result) =>
          match result with
          | .ok _ => some ()
          | .error _ => none
  | _ => some ()

/-- `impl Drop for WriteResources` from `winx.rs`: identical to the posish
one — the take is guarded by `if let Some`. -/
def WriteResources.drop : WriteResources → Option Unit
  | WriteResources.pipedThread st =>
      match st with
      | none => some ()
      | some (pending, sink) =>
          match writeWorker sink pending with
          | .ok _ => some ()
          | .error _ => none
  | _ => some ()

/-- `ReadWriteHandle::child_stdout_stdin` from `winx.rs`, translated exactly
as written: both the read descriptor and the write descriptor are built
from `child_stdout.as_raw_handle()`; `child_stdin`'s raw handle is never
used for either descriptor, though both stream objects are retained in the
resources. -/
def ReadWriteHandle.child_stdout_stdin (child_stdout child_stdin : RawFd) : ReadWriteHandle :=
  ⟨Descriptor.file child_stdout, Descriptor.file child_stdout,
    ReadWriteResources.childStdoutStdin (child_stdout, child_stdin)⟩

end Winx

namespace Posish

/-- Whether a read resource is the thread-bridge variant. -/
def ReadResources.isPipedThread : ReadResources → Bool
  | ReadResources.pipedThread _ => true
  | _ => false

/-- Whether a write resource is the thread-bridge variant. -/
def WriteResources.isPipedThread : WriteResources → Bool
  | WriteResources.pipedThread _ => true
  | _ => false

/-- The stderr configuration a command-spawned handle's retained child was
spawned with, when the resource is a child process. -/
def ReadResources.spawnedStderr : ReadResources → Option Stdio
  | ReadResources.child c => some c.stderrCfg
  | _ => none

/-- One write-then-flush round on the success path: `write_all` the bytes,
then `flush`, with every OS call succeeding; `none` when either operation
does not return success. -/
def writeFlushRound (h : WriteHandle) (B : List Nat) (newFd : RawFd) : Option WriteHandle :=
  match h.write_all B none with
  | some (Except.ok _, h1) =>
      match h1.flush none none newFd with
      | some (Except.ok _, h2) => some h2
      | _ => none
  | _ => none

/-- Iterated write-then-flush rounds, one per fresh rebuild fd. -/
def writeFlushRounds (h : WriteHandle) (B : List Nat) : List RawFd → Option WriteHandle
  | [] => some h
  | fd :: rest =>
      match writeFlushRound h B fd with
      | none => none
      | some h1 => writeFlushRounds h1 B rest

end Posish

/-- The constructor and destructor events on the process's standard streams:
constructing `ReadHandle::stdin`, `WriteHandle::stdout` or
`ReadWriteHandle::stdin_stdout`, and destroying a live handle of each of
those kinds. -/
inductive StdioOp where
  | mkStdin : StdioOp
  | mkStdout : StdioOp
  | mkStdinStdout : StdioOp
  | dropStdin : StdioOp
  | dropStdout : StdioOp
  | dropStdinStdout : StdioOp
deriving DecidableEq

/-- One step of the standard-stream lifecycle: constructors thread the lock
state through the corresponding posish constructor (a failed acquisition
leaves the state unchanged); a destructor event destroys a live handle of
that kind, so it applies only when one exists, and releases through the
resource's destructor. -/
def stepOp (st : LockState) : StdioOp → LockState
  | StdioOp.mkStdin => (Posish.ReadHandle.stdin st).2
  | StdioOp.mkStdout => (Posish.WriteHandle.stdout st).2
  | StdioOp.mkStdinStdout => (Posish.ReadWriteHandle.stdin_stdout st).2
  | StdioOp.dropStdin =>
      if st.liveStdin = 0 then st
      else Posish.ReadResources.release Posish.ReadResources.stdin st
  | StdioOp.dropStdout =>
      if st.liveStdout = 0 then st
      else Posish.WriteResources.release Posish.WriteResources.stdout st
  | StdioOp.dropStdinStdout =>
      if st.liveStdin = 0 ∨ st.liveStdout = 0 then st
      else Posish.ReadWriteResources.release Posish.ReadWriteResources.stdinStdout st

/-- The lock-state invariant: the number of live tokens for each standard
stream is exactly one when the stream is held and zero otherwise. -/
def LockInv (st : LockState) : Prop :=
  st.liveStdin = (if st.stdinHeld then 1 else 0) ∧
    st.liveStdout = (if st.stdoutHeld then 1 else 0)

/-!
Helper lemmas.
-/

/-- The worker of a write bridge with an unbounded (infallible) sink always
terminates successfully, having appended the pipe's bytes and flushed. -/
theorem writeWorker_unbounded (received : List Nat) (fc : Nat) (code : IOError)
    (pending : List Nat) :
    writeWorker ⟨received, fc, none, code⟩ pending
      = Except.ok ⟨received ++ pending, fc + 1, none, code⟩ := by
  simp [writeWorker, sinkWriteAll, sinkFlush]

/-- Whenever a write-bridge worker terminates successfully, the sink it
returns has received exactly the pipe's bytes appended, in order, and has
been flushed once more. -/
theorem writeWorker_ok_spec (sink sink2 : BoxedWrite) (pending : List Nat)
    (h : writeWorker sink pending = Except.ok sink2) :
    sink2.received = sink.received ++ pending ∧
      sink2.flushCount = sink.flushCount + 1 ∧
      sink2.capacity = sink.capacity ∧ sink2.failCode = sink.failCode := by
  obtain ⟨received, fc, cap, code⟩ := sink
  cases cap with
  | none =>
      simp only [writeWorker, sinkWriteAll, sinkFlush] at h
      cases h
      simp
  | some capv =>
      by_cases hle : received.length + pending.length ≤ capv
      · simp only [writeWorker, sinkWriteAll, sinkFlush, if_pos hle] at h
        cases h
        simp
      · simp only [writeWorker, sinkWriteAll, sinkFlush, if_neg hle] at h
        cases h

/-- Reading a plain pipe-reader handle with a sequence of chunk sizes
gathers exactly the first `chunks.sum` bytes of the pipe's content, in
order, leaving the rest. -/
theorem readAll_pipeReader (chunks : List Nat) :
    ∀ (fd : RawFd) (c : List Nat),
      Posish.readAll ⟨fd, Posish.ReadResources.pipeReader c⟩ chunks
        = (c.take chunks.sum, ⟨fd, Posish.ReadResources.pipeReader (c.drop chunks.sum)⟩) := by
  induction chunks with
  | nil =>
      intro fd c
      simp [Posish.readAll]
  | cons n rest ih =>
      intro fd c
      simp only [Posish.readAll, Posish.ReadHandle.readOk, ih, List.sum_cons]
      rw [List.take_add, List.drop_drop]

/-- Reading a bridge-backed handle with a sequence of chunk sizes gathers
exactly the first `chunks.sum` bytes of the pipe's content, in order,
leaving the rest and the worker result untouched. -/
theorem readAll_pipedThread (chunks : List Nat) :
    ∀ (fd : RawFd) (c : List Nat) (res : Except IOError Unit),
      Posish.readAll ⟨fd, Posish.ReadResources.pipedThread (some (c, res))⟩ chunks
        = (c.take chunks.sum,
            ⟨fd, Posish.ReadResources.pipedThread (some (c.drop chunks.sum, res))⟩) := by
  induction chunks with
  | nil =>
      intro fd c res
      simp [Posish.readAll]
  | cons n rest ih =>
      intro fd c res
      simp only [Posish.readAll, Posish.ReadHandle.readOk, ih, List.sum_cons]
      rw [List.take_add, List.drop_drop]

/-- One write-then-flush round on a bridge over an unbounded sink succeeds
and delivers the pending bytes followed by the written bytes. -/
theorem writeFlushRound_unbounded (fd newFd : RawFd) (pending B received : List Nat)
    (fc : Nat) (code : IOError) :
    Posish.writeFlushRound
        ⟨fd, Posish.WriteResources.pipedThread (some (pending, ⟨received, fc, none, code⟩))⟩
        B newFd
      = some ⟨newFd, Posish.WriteResources.pipedThread
          (some ([], ⟨received ++ (pending ++ B), fc + 1, none, code⟩))⟩ := by
  simp [Posish.writeFlushRound, Posish.WriteHandle.write_all, Posish.WriteHandle.flush,
    writeWorker_unbounded, Posish.WriteHandle.piped_thread]

/-- Each standard-stream lifecycle step preserves the lock-state
invariant. -/
theorem lockInv_step (st : LockState) (h : LockInv st) (op : StdioOp) :
    LockInv (stepOp st op) := by
  obtain ⟨h1, h2⟩ := h
  cases op with
  | mkStdin =>
      simp only [stepOp, Posish.ReadHandle.stdin, StdinLocker.new]
      by_cases hh : st.stdinHeld
      · simp [hh, LockInv, h1, h2]
      · simp [hh, LockInv, h1, h2]
  | mkStdout =>
      simp only [stepOp, Posish.WriteHandle.stdout, StdoutLocker.new]
      by_cases hh : st.stdoutHeld
      · simp [hh, LockInv, h1, h2]
      · simp [hh, LockInv, h1, h2]
  | mkStdinStdout =>
      simp only [stepOp, Posish.ReadWriteHandle.stdin_stdout, StdinLocker.new,
        StdoutLocker.new, StdinLocker.drop]
      by_cases hin : st.stdinHeld
      · simp [hin, LockInv, h1, h2]
      · by_cases hout : st.stdoutHeld
        · simp [hin, hout, LockInv, h1, h2]
        · simp [hin, hout, LockInv, h1, h2]
  | dropStdin =>
      simp only [stepOp]
      by_cases hz : st.liveStdin = 0
      · rw [if_pos hz]
        exact ⟨h1, h2⟩
      · have hh : st.stdinHeld := by
          by_contra hc
          simp only [Bool.not_eq_true] at hc
          simp [hc] at h1
          exact hz h1
        rw [if_neg hz]
        constructor
        · simp [Posish.ReadResources.release, StdinLocker.drop, h1, hh]
        · simp [Posish.ReadResources.release, StdinLocker.drop, h2]
  | dropStdout =>
      simp only [stepOp]
      by_cases hz : st.liveStdout = 0
      · rw [if_pos hz]
        exact ⟨h1, h2⟩
      · have hh : st.stdoutHeld := by
          by_contra hc
          simp only [Bool.not_eq_true] at hc
          simp [hc] at h2
          exact hz h2
        rw [if_neg hz]
        constructor
        · simp [Posish.WriteResources.release, StdoutLocker.drop, h1]
        · simp [Posish.WriteResources.release, StdoutLocker.drop, h2, hh]
  | dropStdinStdout =>
      simp only [stepOp]
      by_cases hz : st.liveStdin = 0 ∨ st.liveStdout = 0
      · rw [if_pos hz]
        exact ⟨h1, h2⟩
      · push_neg at hz
        obtain ⟨hzin, hzout⟩ := hz
        have hhin : st.stdinHeld := by
          by_contra hc
          simp only [Bool.not_eq_true] at hc
          simp [hc] at h1
          exact hzin h1
        have hhout : st.stdoutHeld := by
          by_contra hc
          simp only [Bool.not_eq_true] at hc
          simp [hc] at h2
          exact hzout h2
        rw [if_neg (by push_neg; exact ⟨hzin, hzout⟩)]
        constructor
        · simp [Posish.ReadWriteResources.release, StdinLocker.drop, StdoutLocker.drop, h1, hhin]
        · simp [Posish.ReadWriteResources.release, StdinLocker.drop, StdoutLocker.drop, h2, hhout]

/-- Running any sequence of standard-stream lifecycle steps from an
invariant state stays within the invariant. -/
theorem lockInv_run (ops : List StdioOp) :
    ∀ (st : LockState), LockInv st → LockInv (ops.foldl stepOp st) := by
  induction ops with
  | nil => intro st h; exact h
  | cons op rest ih =>
      intro st h
      exact ih (stepOp st op) (lockInv_step st h op)

/-!
Claim theorems.
-/

/-- C6: for every byte slice of length at most the platform's atomic
pipe-write bound `PIPE_BUF`, `ReadHandle::bytes` on the POSIX
implementation writes the payload eagerly into a fresh pipe, closes the
write end, and returns a handle whose resource is a plain pipe reader with
no live worker thread; every longer payload, and every caller-supplied
boxed `Read` object, goes through the general thread-bridge path
(`piped_thread`). -/
theorem c6_bytes_fast_path_bound :
    (∀ (B : List Nat) (fd : RawFd), B.length ≤ Posish.PIPE_BUF →
        Posish.ReadHandle.bytes B fd = ⟨fd, Posish.ReadResources.pipeReader B⟩) ∧
    (∀ (B : List Nat) (fd : RawFd), Posish.PIPE_BUF < B.length →
        Posish.ReadHandle.bytes B fd = Posish.ReadHandle.piped_thread ⟨B, none⟩ fd ∧
          (Posish.ReadHandle.bytes B fd).resources
            = Posish.ReadResources.pipedThread (some (B, Except.ok ()))) ∧
    (∀ (r : BoxedRead) (fd : RawFd),
        (Posish.ReadHandle.piped_thread r fd).resources
          = Posish.ReadResources.pipedThread (some (r.data, readWorkerResult r))) := by
  refine ⟨?_, ?_, ?_⟩
  · intro B fd hlen
    simp [Posish.ReadHandle.bytes, hlen]
  · intro B fd hlen
    constructor
    · simp [Posish.ReadHandle.bytes, Nat.not_le_of_lt hlen]
    · simp [Posish.ReadHandle.bytes, Nat.not_le_of_lt hlen, Posish.ReadHandle.piped_thread,
        readWorkerResult]
  · intro r fd
    simp [Posish.ReadHandle.piped_thread]

/-- Witness for C6 at concrete inputs: the empty payload takes the fast
path and a 4097-byte payload takes the thread-bridge path. -/
theorem c6_bytes_fast_path_bound_witness :
    Posish.ReadHandle.bytes [] 5 = ⟨5, Posish.ReadResources.pipeReader []⟩ ∧
      Posish.ReadHandle.bytes (List.replicate 4097 0) 6
        = Posish.ReadHandle.piped_thread ⟨List.replicate 4097 0, none⟩ 6 :=
  ⟨c6_bytes_fast_path_bound.1 [] 5 (by decide),
    (c6_bytes_fast_path_bound.2.1 (List.replicate 4097 0) 6
      (by rw [List.length_replicate]; show (4096 : Nat) < 4097; norm_num)).1⟩

/-- C3: a `ReadHandle` constructed from bytes `B` by `ReadHandle::bytes`
(whether it takes the direct-pipe fast path or the thread-bridge path, the
latter also covered directly through `piped_thread`) yields exactly `B`,
byte for byte, when read to completion, for every sequence of read-call
chunk sizes, with end of stream observed after the last byte; on the
Windows implementation `bytes` is itself the thread-bridge construction. -/
theorem c3_bytes_reads_back_exactly :
    (∀ (B : List Nat) (fd : RawFd) (chunks : List Nat), B.length ≤ chunks.sum →
        (Posish.readAll (Posish.ReadHandle.bytes B fd) chunks).1 = B ∧
          (Posish.readAll (Posish.ReadHandle.bytes B fd) chunks).2.content = [] ∧
          (∀ m, ((Posish.readAll (Posish.ReadHandle.bytes B fd) chunks).2.readOk m).1 = [])) ∧
    (∀ (B : List Nat) (fd : RawFd) (chunks : List Nat), B.length ≤ chunks.sum →
        (Posish.readAll (Posish.ReadHandle.piped_thread ⟨B, none⟩ fd) chunks).1 = B ∧
          (Posish.readAll (Posish.ReadHandle.piped_thread ⟨B, none⟩ fd) chunks).2.content
            = []) ∧
    (∀ (B : List Nat) (fd : RawFd),
        Winx.ReadHandle.bytes B fd = Winx.ReadHandle.piped_thread ⟨B, none⟩ fd) := by
  refine ⟨?_, ?_, ?_⟩
  · intro B fd chunks hlen
    by_cases hfast : B.length ≤ Posish.PIPE_BUF
    · rw [show Posish.ReadHandle.bytes B fd = ⟨fd, Posish.ReadResources.pipeReader B⟩ by
        simp [Posish.ReadHandle.bytes, hfast]]
      rw [readAll_pipeReader]
      refine ⟨List.take_of_length_le hlen, ?_, ?_⟩
      · simp [Posish.ReadHandle.content, List.drop_of_length_le hlen]
      · intro m
        simp [Posish.ReadHandle.readOk, List.drop_of_length_le hlen]
    · rw [show Posish.ReadHandle.bytes B fd
          = ⟨fd, Posish.ReadResources.pipedThread (some (B, Except.ok ()))⟩ by
        simp [Posish.ReadHandle.bytes, hfast, Posish.ReadHandle.piped_thread, readWorkerResult]]
      rw [readAll_pipedThread]
      refine ⟨List.take_of_length_le hlen, ?_, ?_⟩
      · simp [Posish.ReadHandle.content, List.drop_of_length_le hlen]
      · intro m
        simp [Posish.ReadHandle.readOk, List.drop_of_length_le hlen]
  · intro B fd chunks hlen
    rw [show Posish.ReadHandle.piped_thread ⟨B, none⟩ fd
        = ⟨fd, Posish.ReadResources.pipedThread (some (B, Except.ok ()))⟩ by
      simp [Posish.ReadHandle.piped_thread, readWorkerResult]]
    rw [readAll_pipedThread]
    exact ⟨List.take_of_length_le hlen,
      by simp [Posish.ReadHandle.content, List.drop_of_length_le hlen]⟩
  · intro B fd
    simp [Winx.ReadHandle.bytes]

/-- Witness for C3 at a concrete input: the three-byte payload read in
chunk sizes 2, 0, 5 comes back exactly, with end of stream after it. -/
theorem c3_bytes_reads_back_exactly_witness :
    (Posish.readAll (Posish.ReadHandle.bytes [10, 20, 30] 7) [2, 0, 5]).1 = [10, 20, 30] ∧
      (Posish.readAll (Posish.ReadHandle.piped_thread ⟨[10, 20, 30], none⟩ 7) [2, 0, 5]).1
        = [10, 20, 30] :=
  ⟨(c3_bytes_reads_back_exactly.1 [10, 20, 30] 7 [2, 0, 5] (by decide)).1,
    (c3_bytes_reads_back_exactly.2.1 [10, 20, 30] 7 [2, 0, 5] (by decide)).1⟩

/-- C1: on a bridge-backed `WriteHandle`, a successful `flush()` drains
every byte previously written into the underlying sink, in order, flushes
the sink, and leaves the handle a fresh active bridge around that sink
with no bytes in flight; in particular, writing a byte sequence `B` and
flushing, three times over, yields a sink containing exactly `B`
concatenated three times, in order, with three flushes observed. -/
theorem c1_flush_drains_and_rebuilds :
    (∀ (fd newFd : RawFd) (pending : List Nat) (sink sink2 : BoxedWrite),
        writeWorker sink pending = Except.ok sink2 →
        Posish.WriteHandle.flush
            ⟨fd, Posish.WriteResources.pipedThread (some (pending, sink))⟩ none none newFd
          = some (Except.ok (), Posish.WriteHandle.piped_thread sink2 newFd) ∧
          sink2.received = sink.received ++ pending ∧
          sink2.flushCount = sink.flushCount + 1 ∧
          Posish.WriteHandle.piped_thread sink2 newFd
            = ⟨newFd, Posish.WriteResources.pipedThread (some ([], sink2))⟩) ∧
    (∀ (B : List Nat) (fd f1 f2 f3 : RawFd) (code : IOError),
        Posish.writeFlushRounds (Posish.WriteHandle.piped_thread ⟨[], 0, none, code⟩ fd) B
            [f1, f2, f3]
          = some ⟨f3, Posish.WriteResources.pipedThread
              (some ([], ⟨B ++ B ++ B, 3, none, code⟩))⟩) := by
  constructor
  · intro fd newFd pending sink sink2 hw
    refine ⟨?_, ?_⟩
    · simp [Posish.WriteHandle.flush, hw]
    · obtain ⟨hr, hf, _, _⟩ := writeWorker_ok_spec sink sink2 pending hw
      exact ⟨hr, hf, rfl⟩
  · intro B fd f1 f2 f3 code
    simp [Posish.WriteHandle.piped_thread, Posish.writeFlushRounds, writeFlushRound_unbounded]

/-- Witness for C1 at a concrete input: flushing a bridge with bytes 1, 2
pending over a sink that already received byte 0 succeeds and drains. -/
theorem c1_flush_drains_and_rebuilds_witness :
    Posish.WriteHandle.flush
        ⟨3, Posish.WriteResources.pipedThread (some ([1, 2], ⟨[0], 0, none, 9⟩))⟩ none none 4
      = some (Except.ok (), Posish.WriteHandle.piped_thread ⟨[0, 1, 2], 1, none, 9⟩ 4) :=
  (c1_flush_drains_and_rebuilds.1 3 4 [1, 2] ⟨[0], 0, none, 9⟩ ⟨[0, 1, 2], 1, none, 9⟩
    (by rfl)).1

/-- C2: when a read or write on an active bridge-backed handle returns an
OS-level error while the worker thread terminated with an error, the
caller receives the worker's terminal error, with the bridge state taken
out (consumed); a handle whose resource is not a thread bridge returns
the original error unchanged. -/
theorem c2_worker_error_substitution :
    (∀ (fd : RawFd) (c : List Nat) (werr e : IOError) (n : Nat),
        Posish.ReadHandle.read
            ⟨fd, Posish.ReadResources.pipedThread (some (c, Except.error werr))⟩ n (some e)
          = some (Except.error werr, ⟨fd, Posish.ReadResources.pipedThread none⟩)) ∧
    (∀ (fd : RawFd) (pending buf : List Nat) (sink : BoxedWrite) (werr e : IOError),
        writeWorker sink pending = Except.error werr →
        Posish.WriteHandle.write_all
            ⟨fd, Posish.WriteResources.pipedThread (some (pending, sink))⟩ buf (some e)
          = some (Except.error werr, ⟨fd, Posish.WriteResources.pipedThread none⟩)) ∧
    (∀ (h : Posish.ReadHandle) (e : IOError),
        h.resources.isPipedThread = false →
        Posish.ReadHandle.map_err h e = some (e, h)) ∧
    (∀ (h : Posish.WriteHandle) (e : IOError),
        h.resources.isPipedThread = false →
        Posish.WriteHandle.map_err h e = some (e, h)) ∧
    (∀ (d : Winx.Descriptor) (c : List Nat) (werr e : IOError),
        Winx.ReadHandle.map_err
            ⟨d, Winx.ReadResources.pipedThread (some (c, Except.error werr))⟩ e
          = some (werr, ⟨d, Winx.ReadResources.pipedThread none⟩)) := by
  refine ⟨?_, ?_, ?_, ?_, ?_⟩
  · intro fd c werr e n
    simp [Posish.ReadHandle.read, Posish.ReadHandle.map_err]
  · intro fd pending buf sink werr e hw
    simp [Posish.WriteHandle.write_all, Posish.WriteHandle.map_err, hw]
  · intro h e hnot
    obtain ⟨fd, r⟩ := h
    cases r <;> simp_all [Posish.ReadResources.isPipedThread, Posish.ReadHandle.map_err]
  · intro h e hnot
    obtain ⟨fd, r⟩ := h
    cases r <;> simp_all [Posish.WriteResources.isPipedThread, Posish.WriteHandle.map_err]
  · intro d c werr e
    simp [Winx.ReadHandle.map_err]

/-- Witness for C2 at concrete inputs: a sink of capacity 0 makes the
worker fail with its error code 7, which replaces the foreground error 32;
a plain file-backed handle passes error 32 through unchanged. -/
theorem c2_worker_error_substitution_witness :
    Posish.WriteHandle.write_all
        ⟨3, Posish.WriteResources.pipedThread (some ([1], ⟨[], 0, some 0, 7⟩))⟩ [2] (some 32)
      = some (Except.error 7, ⟨3, Posish.WriteResources.pipedThread none⟩) ∧
      Posish.ReadHandle.map_err ⟨3, Posish.ReadResources.file 3⟩ 32
        = some (32, ⟨3, Posish.ReadResources.file 3⟩) :=
  ⟨c2_worker_error_substitution.2.1 3 [1] [2] ⟨[], 0, some 0, 7⟩ 7 32 (by rfl),
    c2_worker_error_substitution.2.2.1 ⟨3, Posish.ReadResources.file 3⟩ 32 (by rfl)⟩

/-- C9: when a read or write on an active bridge-backed handle returns an
OS-level error while the worker thread terminated successfully, the
error-substitution path panics (`unwrap_err` on the worker's `Ok` result,
modelled as `none`) instead of returning any error value to the caller —
shown at a concrete input and for every such state, on both platform
implementations (an unbounded sink makes the write worker terminate
successfully). -/
theorem c9_worker_ok_substitution_panics :
    (Posish.ReadHandle.read
        ⟨5, Posish.ReadResources.pipedThread (some ([], Except.ok ()))⟩ 1 (some 32)
      = none) ∧
    (∀ (fd : RawFd) (c : List Nat) (e : IOError) (n : Nat),
        Posish.ReadHandle.read
            ⟨fd, Posish.ReadResources.pipedThread (some (c, Except.ok ()))⟩ n (some e)
          = none) ∧
    (∀ (fd : RawFd) (pending received buf : List Nat) (fc : Nat) (code e : IOError),
        Posish.WriteHandle.write_all
            ⟨fd, Posish.WriteResources.pipedThread (some (pending, ⟨received, fc, none, code⟩))⟩
            buf (some e)
          = none) ∧
    (∀ (d : Winx.Descriptor) (c : List Nat) (e : IOError),
        Winx.ReadHandle.map_err
            ⟨d, Winx.ReadResources.pipedThread (some (c, Except.ok ()))⟩ e
          = none) := by
  refine ⟨rfl, ?_, ?_, ?_⟩
  · intro fd c e n
    simp [Posish.ReadHandle.read, Posish.ReadHandle.map_err]
  · intro fd pending received buf fc code e
    simp [Posish.WriteHandle.write_all, Posish.WriteHandle.map_err, writeWorker_unbounded]
  · intro d c e
    simp [Winx.ReadHandle.map_err]

/-- C10: error substitution on a failing bridged read leaves the bridge
state consumed, and dropping a `ReadHandle` in that state panics, because
the `ReadResources` destructor unwraps the taken bridge state
unconditionally; dropping a `WriteHandle` whose bridge state was consumed
the same way does not panic, because the `WriteResources` destructor
guards the take with a pattern match — on both platform
implementations. -/
theorem c10_drop_consumed_bridge :
    (∀ (fd : RawFd) (c : List Nat) (werr e : IOError),
        Posish.ReadHandle.map_err
            ⟨fd, Posish.ReadResources.pipedThread (some (c, Except.error werr))⟩ e
          = some (werr, ⟨fd, Posish.ReadResources.pipedThread none⟩)) ∧
    Posish.ReadResources.drop (Posish.ReadResources.pipedThread none) = none ∧
    Posish.WriteResources.drop (Posish.WriteResources.pipedThread none) = some () ∧
    Winx.ReadResources.drop (Winx.ReadResources.pipedThread none) = none ∧
    Winx.WriteResources.drop (Winx.WriteResources.pipedThread none) = some () := by
  refine ⟨?_, rfl, rfl, rfl, rfl⟩
  intro fd c werr e
  simp [Posish.ReadHandle.map_err]

/-- C5: destroying a handle whose thread bridge is still active joins the
worker and completes normally when the worker terminated successfully
(for the write side, an unbounded sink guarantees that), and panics —
an unrecoverable abort rather than a silent discard — when the worker
terminated with an error never observed by the foreground (for the write
side, a sink of capacity 0 fails on any nonempty pending bytes); on both
platform implementations. -/
theorem c5_drop_active_bridge :
    (∀ (c : List Nat) (werr : IOError),
        Posish.ReadResources.drop
            (Posish.ReadResources.pipedThread (some (c, Except.error werr))) = none) ∧
    (∀ (c : List Nat),
        Posish.ReadResources.drop
            (Posish.ReadResources.pipedThread (some (c, Except.ok ()))) = some ()) ∧
    (∀ (pending received : List Nat) (fc : Nat) (code : IOError),
        Posish.WriteResources.drop
            (Posish.WriteResources.pipedThread (some (pending, ⟨received, fc, none, code⟩)))
          = some ()) ∧
    (∀ (p : Nat) (ps received : List Nat) (fc : Nat) (code : IOError),
        Posish.WriteResources.drop
            (Posish.WriteResources.pipedThread (some (p :: ps, ⟨received, fc, some 0, code⟩)))
          = none) ∧
    (∀ (c : List Nat) (werr : IOError),
        Winx.ReadResources.drop
            (Winx.ReadResources.pipedThread (some (c, Except.error werr))) = none) ∧
    (∀ (p : Nat) (ps received : List Nat) (fc : Nat) (code : IOError),
        Winx.WriteResources.drop
            (Winx.WriteResources.pipedThread (some (p :: ps, ⟨received, fc, some 0, code⟩)))
          = none) := by
  refine ⟨?_, ?_, ?_, ?_, ?_, ?_⟩
  · intro c werr
    simp [Posish.ReadResources.drop]
  · intro c
    simp [Posish.ReadResources.drop]
  · intro pending received fc code
    simp [Posish.WriteResources.drop, writeWorker_unbounded]
  · intro p ps received fc code
    simp [Posish.WriteResources.drop, writeWorker, sinkWriteAll]
  · intro c werr
    simp [Winx.ReadResources.drop]
  · intro p ps received fc code
    simp [Winx.WriteResources.drop, writeWorker, sinkWriteAll]

/-- C4: at most one live handle holds the standard-input token and at most
one holds the standard-output token at any moment along any sequence of
constructor and destructor events; constructing `ReadHandle::stdin`,
`WriteHandle::stdout` or `ReadWriteHandle::stdin_stdout` while the
corresponding token is held fails immediately with the
exclusivity-conflict error, leaving the state unchanged; and after the
holding handle's resources are destroyed, a subsequent acquisition
succeeds. -/
theorem c4_stdio_exclusivity :
    (∀ (ops : List StdioOp),
        (ops.foldl stepOp LockState.init).liveStdin ≤ 1 ∧
          (ops.foldl stepOp LockState.init).liveStdout ≤ 1) ∧
    (∀ (st : LockState), st.stdinHeld = true →
        Posish.ReadHandle.stdin st = (Except.error lockConflict, st)) ∧
    (∀ (st : LockState), st.stdoutHeld = true →
        Posish.WriteHandle.stdout st = (Except.error lockConflict, st)) ∧
    (∀ (st : LockState), st.stdinHeld = true ∨ st.stdoutHeld = true →
        (Posish.ReadWriteHandle.stdin_stdout st).1 = Except.error lockConflict) ∧
    (∀ (st : LockState),
        (Posish.ReadHandle.stdin
            (Posish.ReadResources.release Posish.ReadResources.stdin st)).1
          = Except.ok ⟨0, Posish.ReadResources.stdin⟩) ∧
    (∀ (st : LockState),
        (Posish.WriteHandle.stdout
            (Posish.WriteResources.release Posish.WriteResources.stdout st)).1
          = Except.ok ⟨1, Posish.WriteResources.stdout⟩) := by
  refine ⟨?_, ?_, ?_, ?_, ?_, ?_⟩
  · intro ops
    have hinv := lockInv_run ops LockState.init (by constructor <;> rfl)
    obtain ⟨h1, h2⟩ := hinv
    constructor
    · rw [h1]
      by_cases hh : (ops.foldl stepOp LockState.init).stdinHeld <;> simp [hh]
    · rw [h2]
      by_cases hh : (ops.foldl stepOp LockState.init).stdoutHeld <;> simp [hh]
  · intro st hh
    simp [Posish.ReadHandle.stdin, StdinLocker.new, hh]
  · intro st hh
    simp [Posish.WriteHandle.stdout, StdoutLocker.new, hh]
  · intro st hh
    cases hh with
    | inl hin =>
        simp [Posish.ReadWriteHandle.stdin_stdout, StdinLocker.new, hin]
    | inr hout =>
        by_cases hin : st.stdinHeld
        · simp [Posish.ReadWriteHandle.stdin_stdout, StdinLocker.new, hin]
        · simp [Posish.ReadWriteHandle.stdin_stdout, StdinLocker.new, StdoutLocker.new,
            hin, hout]
  · intro st
    simp [Posish.ReadHandle.stdin, Posish.ReadResources.release, StdinLocker.new,
      StdinLocker.drop]
  · intro st
    simp [Posish.WriteHandle.stdout, Posish.WriteResources.release, StdoutLocker.new,
      StdoutLocker.drop]

/-- Witness for C4 at concrete states: a second stdin acquisition while
held fails with the conflict error, and succeeds after release. -/
theorem c4_stdio_exclusivity_witness :
    Posish.ReadHandle.stdin ⟨true, false, 1, 0⟩ = (Except.error lockConflict, ⟨true, false, 1, 0⟩) ∧
      (Posish.ReadWriteHandle.stdin_stdout ⟨false, true, 0, 1⟩).1 = Except.error lockConflict :=
  ⟨c4_stdio_exclusivity.2.1 ⟨true, false, 1, 0⟩ (by rfl),
    c4_stdio_exclusivity.2.2.2.1 ⟨false, true, 0, 1⟩ (Or.inr (by rfl))⟩

/-- C7 counterexample: `ReadHandle::read_from_command` on a freshly
constructed command leaves the child's standard error at its default,
`Stdio::inherit`, not directed to the null device — so not every other
standard stream is suppressed. -/
theorem c7_command_stderr_counterexample :
    Posish.ReadResources.spawnedStderr
        (Posish.ReadHandle.read_from_command Command.new (0, 1, 2)).resources
      = some Stdio.inherit ∧ Stdio.inherit ≠ Stdio.null := by
  constructor
  · rfl
  · decide

/-- C7 (amended): `ReadHandle::read_from_command` spawns the child with its
standard output redirected to a pipe and its standard input directed to
the null device, and `WriteHandle::write_to_command` spawns the child with
its standard input redirected to a pipe and its standard output directed
to the null device; the child's standard error is left at the command's
existing configuration (inherited by default) in both cases; the returned
handle's descriptor is the child's redirected stream and the child-process
object is retained in the handle's resources; likewise on the Windows
implementation. -/
theorem c7_command_spawn_amended :
    (∀ (c : Command) (fds : RawFd × RawFd × RawFd),
        Posish.ReadHandle.read_from_command c fds
          = ⟨fds.2.1, Posish.ReadResources.child
              ⟨Stdio.null, Stdio.piped, c.stderrCfg, fds.1, fds.2.1, fds.2.2⟩⟩) ∧
    (∀ (c : Command) (fds : RawFd × RawFd × RawFd),
        Posish.WriteHandle.write_to_command c fds
          = ⟨fds.1, Posish.WriteResources.child
              ⟨Stdio.piped, Stdio.null, c.stderrCfg, fds.1, fds.2.1, fds.2.2⟩⟩) ∧
    (∀ (c : Command) (fds : RawFd × RawFd × RawFd),
        Winx.ReadHandle.read_from_command c fds
          = ⟨Winx.Descriptor.file fds.2.1, Winx.ReadResources.child
              ⟨Stdio.null, Stdio.piped, c.stderrCfg, fds.1, fds.2.1, fds.2.2⟩⟩) := by
  refine ⟨?_, ?_, ?_⟩
  · intro c fds
    rfl
  · intro c fds
    rfl
  · intro c fds
    rfl

/-- C8: evaluated at a child whose stdout has raw handle 3 and whose stdin
has raw handle 4, the Windows `ReadWriteHandle::child_stdout_stdin` builds
both descriptors from the child's stdout handle, so its write descriptor
refers to raw handle 3, not the child stdin's raw handle 4; the POSIX
implementation wires the write descriptor to the child stdin's raw fd as
intended. -/
theorem c8_winx_write_descriptor_divergence :
    (Winx.ReadWriteHandle.child_stdout_stdin 3 4).write_descriptor = Winx.Descriptor.file 3 ∧
      Winx.Descriptor.file 3 ≠ Winx.Descriptor.file 4 ∧
      (Winx.ReadWriteHandle.child_stdout_stdin 3 4).read_descriptor = Winx.Descriptor.file 3 ∧
      (Posish.ReadWriteHandle.child_stdout_stdin 3 4).write_descriptor = 4 ∧
      (Posish.ReadWriteHandle.child_stdout_stdin 3 4).read_descriptor = 3 := by
  refine ⟨rfl, ?_, rfl, rfl, rfl⟩
  decide
